import Mathlib

/-!
Verification of the Perfmatters configuration generator's rule resolution
and merge engine, shallowly embedded from app.py.  Strings are modelled as
their character lists; Python regular-expression substitutions are modelled
by functions proved below to follow Python's semantics for the two concrete
patterns used by the source (the dot does not cross a line feed, and the
dollar anchor matches at the end of the string or just before one final
trailing line feed).
-/

namespace Perfmatters

/-- Model of Python's whitespace class (ASCII part), used by the version
pattern in normalize_plugin_name. -/
def isPySpace (c : Char) : Bool :=
  c.toNat = 32 || c.toNat = 9 || c.toNat = 10 || c.toNat = 13 || c.toNat = 11 || c.toNat = 12

/-- Model of Python's digit class (ASCII part). -/
def isPyDigit (c : Char) : Bool :=
  48 ≤ c.toNat && c.toNat ≤ 57

/-- Model of str.lower applied character by character (ASCII case folding). -/
def pyToLower (s : List Char) : List Char := s.map Char.toLower

/-- One character of the two replace calls turning spaces and underscores
into hyphens. -/
def hyphenChar (c : Char) : Char := if c = ' ' || c = '_' then '-' else c

/-- Model of .replace(' ', '-').replace('_', '-'). -/
def pyHyphenize (s : List Char) : List Char := s.map hyphenChar

/-- Model of str.strip(): remove leading and trailing whitespace. -/
def pyStrip (s : String) : String :=
  String.mk (((s.data.dropWhile isPySpace).reverse.dropWhile isPySpace).reverse)

/-- The piece of the string a dollar-anchored removal leaves behind after the
match: one final line feed survives when the dollar matched just before it. -/
def tailKeep (s : List Char) : List Char :=
  if s.getLast? = some '\n' then ['\n'] else []

/-- Model of re.sub applied to the slash pattern of normalize_plugin_name:
everything from the first slash that can reach a dollar position is removed.
A slash matches when every line feed strictly after it is the final
character of the string. -/
def subSlash : List Char → List Char
  | [] => []
  | c :: cs =>
    if c = '/' && !(cs.dropLast.contains '\n') then tailKeep (c :: cs)
    else c :: subSlash cs

/-- After one whitespace character, decides whether the rest of the version
pattern of normalize_plugin_name can match: further whitespace, then a
digit, then any characters up to a dollar position. -/
def wsThen : List Char → Bool
  | [] => false
  | c :: cs =>
    if isPyDigit c then !(cs.dropLast.contains '\n')
    else isPySpace c && wsThen cs

/-- Model of re.sub applied to the version pattern of normalize_plugin_name:
everything from the first whitespace run that is followed by a digit and can
reach a dollar position is removed. -/
def subVersion : List Char → List Char
  | [] => []
  | c :: cs =>
    if isPySpace c && wsThen cs then tailKeep (c :: cs)
    else c :: subVersion cs

/-- Embedding of PerfmattersConfigGenerator._normalize_plugin_name: strip a
path suffix, strip a whitespace-then-digits version marker, lowercase, and
hyphenate spaces and underscores. -/
def normalize_plugin_name (plugin : String) : String :=
  String.mk (pyHyphenize (pyToLower (subVersion (subSlash plugin.data))))

/-- Embedding of PerfmattersConfigGenerator._normalize_theme_name: lowercase
and hyphenate spaces and underscores; the source strips no version suffix. -/
def normalize_theme_name (theme : String) : String :=
  String.mk (pyHyphenize (pyToLower theme.data))

/-- Substring test on character lists, modelling Python's in operator on
strings. -/
def listContainsSub (hay needle : List Char) : Bool :=
  (List.range (hay.length + 1)).any (fun i => needle.isPrefixOf (hay.drop i))

/-- Embedding of PerfmattersConfigGenerator._is_kadence_theme: some raw theme
name, lowercased, contains the substring kadence. -/
def is_kadence_theme (themes : List String) : Bool :=
  themes.any (fun t => listContainsSub (pyToLower t.data) ("kadence".data))

/-- Order-preserving deduplication keeping the first occurrence of every
element, modelling dict.fromkeys and the seen-set comprehension of the
source. -/
def dedupFirst {α : Type} [DecidableEq α] : List α → List α
  | [] => []
  | x :: xs => x :: (dedupFirst xs).filter (fun y => decide (y ≠ x))

/-- A rule entry: the parsed JSON object stored under one plugin, theme or
universal key, as a map from field names to token lists. -/
abbrev Entry := List (String × List String)

/-- Model of entry.get(field, []). -/
def entryGet (e : Entry) (field : String) : List String :=
  ((e.find? (fun kv => kv.1 == field)).map Prod.snd).getD []

/-- A compound rule as described by the store format: a fragment guarded by
required plugins and an optional required theme.  The source never reads
these entries. -/
structure CompoundRule where
  required_plugins : List String
  required_theme : Option String
  fragment : Entry
deriving DecidableEq

/-- One rule dictionary file: universal entry, plugin entries, theme entries
and compound rules. -/
structure RuleDict where
  universal : Entry
  plugins : List (String × Entry)
  themes : List (String × Entry)
  compound_rules : List CompoundRule
deriving DecidableEq

/-- Model of the key-in-dict test followed by subscripting. -/
def lookupEntry (d : List (String × Entry)) (key : String) : Option Entry :=
  (d.find? (fun kv => kv.1 == key)).map Prod.snd

/-- Model of the lookup as seen by the caller: the getters return the entry
when the key is present, and the caller tests it for Python truthiness, so
an empty entry behaves like a missing one. -/
def truthyLookup (d : List (String × Entry)) (key : String) : Option Entry :=
  match lookupEntry d key with
  | some e => if e.isEmpty then none else some e
  | none => none

/-- The three loaded rule dictionaries of the generator. -/
structure Stores where
  rucss_dict : RuleDict
  delayjs_dict : RuleDict
  js_dict : RuleDict
deriving DecidableEq

/-- The result of the external ad detector, get_ad_exclusions: six token
lists keyed like the Python dictionary it returns. -/
structure AdExclusions where
  rucss_exclusions : List String
  delay_js_exclusions : List String
  rucss_excluded_selectors : List String
  minify_css_exclusions : List String
  js_exclusions : List String
  minify_js_exclusions : List String
deriving DecidableEq

/-- Model of any(ad_exclusions.values()). -/
def AdExclusions.anyValues (a : AdExclusions) : Bool :=
  !a.rucss_exclusions.isEmpty || !a.delay_js_exclusions.isEmpty ||
  !a.rucss_excluded_selectors.isEmpty || !a.minify_css_exclusions.isEmpty ||
  !a.js_exclusions.isEmpty || !a.minify_js_exclusions.isEmpty

/-- The six merged exclusion categories written into the assets section of
the template, kept as token lists (the source joins each with line feeds
when emitting). -/
structure ExclusionSet where
  js_exclusions : List String
  delay_js_exclusions : List String
  rucss_excluded_stylesheets : List String
  rucss_excluded_selectors : List String
  minify_css_exclusions : List String
  minify_js_exclusions : List String
deriving DecidableEq

/-- The processing_info record of the result. -/
structure ProcessingInfo where
  plugins_processed : Nat
  themes_processed : Nat
deriving DecidableEq

/-- The record returned by generate_config: merged exclusions, whether the
Kadence override cleared remove_comment_urls, the counters, and the
detected_ad_providers list. -/
structure GenResult where
  exclusions : ExclusionSet
  remove_comment_urls_cleared : Bool
  processing_info : ProcessingInfo
  detected_ad_providers : List String
deriving DecidableEq

/-- The legacy theme-field fallback of generate_config: theme_parent when
truthy, then theme_child when truthy and different from theme_parent, then
theme only when the sequence is still empty. -/
def fallbackThemes (theme_parent theme_child : Option String) (theme : String) : List String :=
  let l1 : List String :=
    match theme_parent with
    | some p => if p ≠ "" then [p] else []
    | none => []
  let l2 : List String :=
    match theme_child with
    | some c => if c ≠ "" ∧ theme_parent ≠ some c then [c] else []
    | none => []
  let l3 : List String :=
    if (l1 ++ l2).isEmpty ∧ theme ≠ "" then [theme] else []
  l1 ++ l2 ++ l3

/-- The theme sequence generate_config processes: the themes argument when
truthy (not None and non-empty), otherwise the legacy fallback, deduplicated
preserving first-seen order. -/
def themesToProcess (themes : Option (List String)) (theme_parent theme_child : Option String)
    (theme : String) : List String :=
  let base :=
    match themes with
    | some ts => if ts.isEmpty then fallbackThemes theme_parent theme_child theme else ts
    | none => fallbackThemes theme_parent theme_child theme
  dedupFirst base

/-- The mutable accumulation of the two processing loops of generate_config. -/
structure LoopState where
  js_exclusions : List String
  delay_js_exclusions : List String
  rucss_excluded_stylesheets : List String
  plugins_processed : Nat
  themes_processed : Nat

/-- One iteration of the plugin loop of generate_config: look the normalized
plugin key up in each of the three dictionaries, extend the matching lists,
and count only a RUCSS hit. -/
def processPlugin (st : Stores) (acc : LoopState) (plugin : String) : LoopState :=
  let key := normalize_plugin_name plugin
  let acc :=
    match truthyLookup st.rucss_dict.plugins key with
    | some e =>
      { acc with
        rucss_excluded_stylesheets :=
          acc.rucss_excluded_stylesheets ++ entryGet e "rucss_excluded_stylesheets"
        plugins_processed := acc.plugins_processed + 1 }
    | none => acc
  let acc :=
    match truthyLookup st.delayjs_dict.plugins key with
    | some e =>
      { acc with
        delay_js_exclusions := acc.delay_js_exclusions ++ entryGet e "delay_js_exclusions" }
    | none => acc
  match truthyLookup st.js_dict.plugins key with
  | some e => { acc with js_exclusions := acc.js_exclusions ++ entryGet e "js_exclusions" }
  | none => acc

/-- One iteration of the theme loop of generate_config, mirror image of the
plugin iteration over the themes namespaces. -/
def processTheme (st : Stores) (acc : LoopState) (theme : String) : LoopState :=
  let key := normalize_theme_name theme
  let acc :=
    match truthyLookup st.rucss_dict.themes key with
    | some e =>
      { acc with
        rucss_excluded_stylesheets :=
          acc.rucss_excluded_stylesheets ++ entryGet e "rucss_excluded_stylesheets"
        themes_processed := acc.themes_processed + 1 }
    | none => acc
  let acc :=
    match truthyLookup st.delayjs_dict.themes key with
    | some e =>
      { acc with
        delay_js_exclusions := acc.delay_js_exclusions ++ entryGet e "delay_js_exclusions" }
    | none => acc
  match truthyLookup st.js_dict.themes key with
  | some e => { acc with js_exclusions := acc.js_exclusions ++ entryGet e "js_exclusions" }
  | none => acc

/-- Embedding of PerfmattersConfigGenerator.generate_config.  The ad
detector's result is passed as an input since the fetch is an external
call; its exclusions are merged when domain analysis was requested, a
domain was given and the detector returned at least one non-empty list. -/
def generate_config (st : Stores) (ad : AdExclusions) (plugins : List String) (theme : String)
    (domain : String) (analyze_domain : Bool) (themes : Option (List String))
    (theme_parent theme_child : Option String) : GenResult :=
  let applyAds := analyze_domain && domain != "" && ad.anyValues
  let js0 := entryGet st.js_dict.universal "js_exclusions" ++
    (if applyAds then ad.js_exclusions else [])
  let delay0 := entryGet st.delayjs_dict.universal "delay_js_exclusions" ++
    (if applyAds then ad.delay_js_exclusions else [])
  let css0 := entryGet st.rucss_dict.universal "rucss_excluded_stylesheets" ++
    (if applyAds then ad.rucss_exclusions else [])
  let selectors0 := if applyAds then ad.rucss_excluded_selectors else []
  let mincss0 := if applyAds then ad.minify_css_exclusions else []
  let minjs0 := if applyAds then ad.minify_js_exclusions else []
  let acc0 : LoopState := ⟨js0, delay0, css0, 0, 0⟩
  let acc1 := plugins.foldl (processPlugin st) acc0
  let tp := themesToProcess themes theme_parent theme_child theme
  let acc2 := tp.foldl (processTheme st) acc1
  { exclusions :=
      { js_exclusions := dedupFirst acc2.js_exclusions
        delay_js_exclusions := dedupFirst acc2.delay_js_exclusions
        rucss_excluded_stylesheets := dedupFirst acc2.rucss_excluded_stylesheets
        rucss_excluded_selectors := dedupFirst selectors0
        minify_css_exclusions := dedupFirst mincss0
        minify_js_exclusions := dedupFirst minjs0 }
    remove_comment_urls_cleared := is_kadence_theme tp
    processing_info := ⟨acc2.plugins_processed, acc2.themes_processed⟩
    detected_ad_providers := [] }

/-- The six output categories. -/
inductive Category where
  | js | delayJs | stylesheets | selectors | minifyCss | minifyJs
deriving DecidableEq

/-- Category accessor on an ExclusionSet. -/
def ExclusionSet.cat (e : ExclusionSet) : Category → List String
  | .js => e.js_exclusions
  | .delayJs => e.delay_js_exclusions
  | .stylesheets => e.rucss_excluded_stylesheets
  | .selectors => e.rucss_excluded_selectors
  | .minifyCss => e.minify_css_exclusions
  | .minifyJs => e.minify_js_exclusions

/-- Category accessor on the ad detector result. -/
def AdExclusions.cat (a : AdExclusions) : Category → List String
  | .js => a.js_exclusions
  | .delayJs => a.delay_js_exclusions
  | .stylesheets => a.rucss_exclusions
  | .selectors => a.rucss_excluded_selectors
  | .minifyCss => a.minify_css_exclusions
  | .minifyJs => a.minify_js_exclusions

/-- The universal baseline segment per category. -/
def univSeg (st : Stores) : Category → List String
  | .js => entryGet st.js_dict.universal "js_exclusions"
  | .delayJs => entryGet st.delayjs_dict.universal "delay_js_exclusions"
  | .stylesheets => entryGet st.rucss_dict.universal "rucss_excluded_stylesheets"
  | _ => []

/-- The detected-provider segment per category. -/
def adSeg (ad : AdExclusions) (analyze_domain : Bool) (domain : String) (c : Category) :
    List String :=
  if analyze_domain && domain != "" && ad.anyValues then ad.cat c else []

/-- What one plugin contributes to one category. -/
def pluginContrib (st : Stores) (c : Category) (p : String) : List String :=
  match c with
  | .js =>
    match truthyLookup st.js_dict.plugins (normalize_plugin_name p) with
    | some e => entryGet e "js_exclusions"
    | none => []
  | .delayJs =>
    match truthyLookup st.delayjs_dict.plugins (normalize_plugin_name p) with
    | some e => entryGet e "delay_js_exclusions"
    | none => []
  | .stylesheets =>
    match truthyLookup st.rucss_dict.plugins (normalize_plugin_name p) with
    | some e => entryGet e "rucss_excluded_stylesheets"
    | none => []
  | _ => []

/-- What one theme contributes to one category. -/
def themeContrib (st : Stores) (c : Category) (t : String) : List String :=
  match c with
  | .js =>
    match truthyLookup st.js_dict.themes (normalize_theme_name t) with
    | some e => entryGet e "js_exclusions"
    | none => []
  | .delayJs =>
    match truthyLookup st.delayjs_dict.themes (normalize_theme_name t) with
    | some e => entryGet e "delay_js_exclusions"
    | none => []
  | .stylesheets =>
    match truthyLookup st.rucss_dict.themes (normalize_theme_name t) with
    | some e => entryGet e "rucss_excluded_stylesheets"
    | none => []
  | _ => []

/-- The plugin segment per category, in original plugin input order. -/
def plugSeg (st : Stores) (plugins : List String) (c : Category) : List String :=
  plugins.flatMap (pluginContrib st c)

/-- The theme segment per category, in themesToProcess order. -/
def thmSeg (st : Stores) (tp : List String) (c : Category) : List String :=
  tp.flatMap (themeContrib st c)

/-- The pre-deduplication merged token sequence of one category, in the fixed
step order universal, detected providers, plugins, themes. -/
def mergedCat (st : Stores) (ad : AdExclusions) (plugins : List String)
    (analyze_domain : Bool) (domain : String) (tp : List String) (c : Category) : List String :=
  univSeg st c ++ adSeg ad analyze_domain domain c ++ plugSeg st plugins c ++ thmSeg st tp c

/-- Whether a plugin increments plugins_processed: its normalized key has a
truthy entry in the RUCSS plugins dictionary. -/
def pluginHit (st : Stores) (p : String) : Bool :=
  (truthyLookup st.rucss_dict.plugins (normalize_plugin_name p)).isSome

/-- Whether a theme increments themes_processed: its normalized key has a
truthy entry in the RUCSS themes dictionary. -/
def themeHit (st : Stores) (t : String) : Bool :=
  (truthyLookup st.rucss_dict.themes (normalize_theme_name t)).isSome

/-- The in-memory snapshot mutated by load_configurations. -/
structure GeneratorState where
  template_string : String
  rucss_dict : RuleDict
  delayjs_dict : RuleDict
  js_dict : RuleDict
deriving DecidableEq

/-- The outcome of reading the four configuration files: none models a file
that is missing or, for the dictionaries, fails to parse as JSON (the
template is read as raw text, so only a missing template file aborts). -/
structure ConfigFiles where
  template_file : Option String
  rucss_file : Option RuleDict
  delayjs_file : Option RuleDict
  js_file : Option RuleDict

/-- Embedding of load_configurations: the four files are read and assigned
one after the other onto the live state; the first failure aborts with the
fields assigned so far already overwritten.  The returned flag is success. -/
def load_configurations (fs : ConfigFiles) (st : GeneratorState) : Bool × GeneratorState :=
  match fs.template_file with
  | none => (false, st)
  | some t =>
    let st1 := { st with template_string := pyStrip t }
    match fs.rucss_file with
    | none => (false, st1)
    | some r =>
      let st2 := { st1 with rucss_dict := r }
      match fs.delayjs_file with
      | none => (false, st2)
      | some d =>
        let st3 := { st2 with delayjs_dict := d }
        match fs.js_file with
        | none => (false, st3)
        | some j => (true, { st3 with js_dict := j })

/-- Dynamically typed value, modelling what json.load can put at any place of
a rule dictionary, for the behaviour of the store accessors on malformed
categories. -/
inductive PyVal where
  | pnone : PyVal
  | pbool : Bool → PyVal
  | pint : Int → PyVal
  | pstr : String → PyVal
  | plist : List PyVal → PyVal
  | pdict : List (String × PyVal) → PyVal

/-- Model of value.get(key, default): works on a dictionary, raises
AttributeError on every other value. -/
def pyDictGet (v : PyVal) (key : String) (dflt : PyVal) : Except String PyVal :=
  match v with
  | .pdict kvs => .ok (((kvs.find? (fun kv => kv.1 == key)).map Prod.snd).getD dflt)
  | _ => .error "AttributeError"

/-- Model of list.extend(value): a list contributes its elements, a string
its one-character substrings, a dictionary its keys; other values raise
TypeError. -/
def pyExtendList (v : PyVal) : Except String (List PyVal) :=
  match v with
  | .plist xs => .ok xs
  | .pstr s => .ok (s.data.map (fun ch => PyVal.pstr (String.mk [ch])))
  | .pdict kvs => .ok (kvs.map (fun kv => PyVal.pstr kv.1))
  | _ => .error "TypeError"

/-- Equality of a dynamic value with a string, as Python's == would decide it
inside a membership test. -/
def pyIsStr (v : PyVal) (s : String) : Bool :=
  match v with
  | .pstr t => t == s
  | _ => false

/-- Model of key in value for a string key: dictionary key membership, list
element membership, substring test on strings; raises TypeError otherwise. -/
def pyContains (v : PyVal) (key : String) : Except String Bool :=
  match v with
  | .pdict kvs => .ok (kvs.any (fun kv => kv.1 == key))
  | .plist xs => .ok (xs.any (fun x => pyIsStr x key))
  | .pstr s => .ok (listContainsSub s.data key.data)
  | _ => .error "TypeError"

/-- Model of value[key] for a string key, only reached after a successful
membership test in the source. -/
def pySubscript (v : PyVal) (key : String) : Except String PyVal :=
  match v with
  | .pdict kvs =>
    match kvs.find? (fun kv => kv.1 == key) with
    | some kv => .ok kv.2
    | none => .error "KeyError"
  | _ => .error "TypeError"

/-- The universal extraction path of generate_config over a raw store value:
store.get(catKey, {}) followed by .get(field, []) followed by extending a
list with the result. -/
def rawUniversalField (store : PyVal) (catKey field : String) :
    Except String (List PyVal) := do
  let u ← pyDictGet store catKey (.pdict [])
  let l ← pyDictGet u field (.plist [])
  pyExtendList l

/-- The plugin lookup path _get_plugin_rucss_optimizations over a raw store
value: plugins_config = store.get(plugins, {}), then the key-in test, then
subscripting; returns the found entry or None. -/
def rawGetPluginRucss (rucss : PyVal) (plugin : String) :
    Except String (Option PyVal) := do
  let pc ← pyDictGet rucss "plugins" (.pdict [])
  let key := normalize_plugin_name plugin
  let b ← pyContains pc key
  if b then do
    let v ← pySubscript pc key
    pure (some v)
  else
    pure none

/-- The composition of case folding and hyphenation applied to every
character by both normalizers. -/
def pyNormChar (c : Char) : Char := hyphenChar (Char.toLower c)

/-- Whether the version pattern of normalize_plugin_name matches anywhere in
the string. -/
def hasVerMatch : List Char → Bool
  | [] => false
  | c :: cs => (isPySpace c && wsThen cs) || hasVerMatch cs

/-- A rule dictionary with no entries. -/
def emptyRuleDict : RuleDict := ⟨[], [], [], []⟩

/-- A store with three empty dictionaries. -/
def emptyStores : Stores := ⟨emptyRuleDict, emptyRuleDict, emptyRuleDict⟩

/-- A detector result with nothing detected. -/
def noAds : AdExclusions := ⟨[], [], [], [], [], []⟩

/-- The store of the specification's worked scenario: a plugin rule for key
woocommerce contributing script exclusion woocommerce.min.js (script
exclusions live in the JS dictionary) and a theme rule for astra
contributing stylesheet exclusion astra.css. -/
def scenStores : Stores :=
  ⟨{ emptyRuleDict with
      themes := [("astra", [("rucss_excluded_stylesheets", ["astra.css"])])] },
   emptyRuleDict,
   { emptyRuleDict with
      plugins := [("woocommerce", [("js_exclusions", ["woocommerce.min.js"])])] }⟩

/-- A compound rule whose activation conditions are met by the inputs used in
the compound-rule counterexample. -/
def compoundRuleW : CompoundRule :=
  ⟨["a"], some "t", [("rucss_excluded_stylesheets", ["compound.css"])]⟩

/-- A store whose RUCSS dictionary carries one compound rule and nothing
else. -/
def compoundStores : Stores :=
  ⟨{ emptyRuleDict with compound_rules := [compoundRuleW] }, emptyRuleDict, emptyRuleDict⟩

/-- A store with a universal JS exclusion and one JS plugin rule, used to
witness the merge ordering. -/
def orderStores : Stores :=
  ⟨emptyRuleDict, emptyRuleDict,
   { emptyRuleDict with
      universal := [("js_exclusions", ["u.js"])]
      plugins := [("p", [("js_exclusions", ["p.js"])])] }⟩

/-- A detector result carrying one JS exclusion. -/
def adDetectedW : AdExclusions := ⟨[], [], [], [], ["ad.js"], []⟩

/-- A rule dictionary with one universal stylesheet entry. -/
def dictW : RuleDict := ⟨[("rucss_excluded_stylesheets", ["x.css"])], [], [], []⟩

/-- A generator snapshot from before a reload. -/
def stateOld : GeneratorState := ⟨"old-template", emptyRuleDict, emptyRuleDict, emptyRuleDict⟩

/-- A read outcome where the first two files load and the third fails. -/
def filesPartial : ConfigFiles := ⟨some "NEW", some dictW, none, some emptyRuleDict⟩

theorem charToNat_inj {c d : Char} (h : c.toNat = d.toNat) : c = d := by
  rw [← Char.ofNat_toNat c, h, Char.ofNat_toNat]

theorem toLower_toNat (c : Char) :
    (Char.toLower c).toNat = if 65 ≤ c.toNat ∧ c.toNat ≤ 90 then c.toNat + 32 else c.toNat := by
  unfold Char.toLower
  by_cases h : c.toNat ≥ 65 ∧ c.toNat ≤ 90
  · rw [if_pos h, if_pos ⟨h.1, h.2⟩]
    have h1 : 97 ≤ c.toNat + 32 := by omega
    have h2 : c.toNat + 32 ≤ 122 := by omega
    interval_cases hm : (c.toNat + 32) <;> decide
  · rw [if_neg h, if_neg (fun hc => h ⟨hc.1, hc.2⟩)]

theorem toLower_branches (c : Char) :
    (65 ≤ c.toNat ∧ c.toNat ≤ 90 ∧ (Char.toLower c).toNat = c.toNat + 32) ∨
    (¬(65 ≤ c.toNat ∧ c.toNat ≤ 90) ∧ (Char.toLower c).toNat = c.toNat) := by
  have ht := toLower_toNat c
  by_cases h65 : 65 ≤ c.toNat ∧ c.toNat ≤ 90
  · rw [if_pos h65] at ht
    exact Or.inl ⟨h65.1, h65.2, ht⟩
  · rw [if_neg h65] at ht
    exact Or.inr ⟨h65, ht⟩

theorem toLower_toLower (c : Char) : (Char.toLower c).toLower = Char.toLower c := by
  apply charToNat_inj
  rcases toLower_branches c with ⟨h1, h2, ht⟩ | ⟨h65, ht⟩ <;>
    rcases toLower_branches (Char.toLower c) with ⟨g1, g2, gt⟩ | ⟨g65, gt⟩ <;> omega

theorem isPySpace_toLower {c : Char} (h : isPySpace (Char.toLower c) = true) :
    isPySpace c = true := by
  simp only [isPySpace, Bool.or_eq_true, decide_eq_true_eq] at h ⊢
  rcases toLower_branches c with ⟨h1, h2, ht⟩ | ⟨h65, ht⟩ <;> omega

theorem isPyDigit_toLower (c : Char) : isPyDigit (Char.toLower c) = isPyDigit c := by
  apply Bool.eq_iff_iff.mpr
  simp only [isPyDigit, Bool.and_eq_true, decide_eq_true_eq]
  rcases toLower_branches c with ⟨h1, h2, ht⟩ | ⟨h65, ht⟩ <;> omega

theorem toLower_eq_of_toNat {c : Char} {n : Nat} (hn : n < 65)
    (h : (Char.toLower c).toNat = n) : c.toNat = n := by
  rcases toLower_branches c with ⟨h1, h2, ht⟩ | ⟨h65, ht⟩ <;> omega

theorem hyphenChar_eq_or (c : Char) : hyphenChar c = '-' ∨ hyphenChar c = c := by
  unfold hyphenChar
  by_cases h : c = ' ' || c = '_'
  · left; rw [if_pos h]
  · right; rw [if_neg h]

theorem isPySpace_hyphenChar {c : Char} (h : isPySpace (hyphenChar c) = true) :
    isPySpace c = true := by
  rcases hyphenChar_eq_or c with he | he <;> rw [he] at h
  · exact absurd h (by decide)
  · exact h

theorem isPyDigit_hyphenChar (c : Char) : isPyDigit (hyphenChar c) = isPyDigit c := by
  unfold hyphenChar
  by_cases h : c = ' ' || c = '_'
  · rw [if_pos h]
    rcases Bool.or_eq_true _ _ |>.mp h with h' | h' <;>
      rw [decide_eq_true_eq.mp h'] <;> decide
  · rw [if_neg h]

theorem hyphenChar_eq_char {c d : Char} (hd : d ≠ '-') (h : hyphenChar c = d) : c = d := by
  rcases hyphenChar_eq_or c with he | he
  · exact absurd (he ▸ h).symm hd
  · rwa [he] at h

theorem hyphenChar_hyphenChar (c : Char) : hyphenChar (hyphenChar c) = hyphenChar c := by
  rcases hyphenChar_eq_or c with he | he <;> rw [he]
  · decide
  · exact he

theorem pyNormChar_idem (c : Char) : pyNormChar (pyNormChar c) = pyNormChar c := by
  unfold pyNormChar
  rcases hyphenChar_eq_or (Char.toLower c) with he | he <;> rw [he]
  · decide
  · rw [toLower_toLower, he]

theorem isPySpace_pyNormChar {c : Char} (h : isPySpace (pyNormChar c) = true) :
    isPySpace c = true :=
  isPySpace_toLower (isPySpace_hyphenChar h)

theorem isPyDigit_pyNormChar (c : Char) : isPyDigit (pyNormChar c) = isPyDigit c := by
  unfold pyNormChar
  rw [isPyDigit_hyphenChar, isPyDigit_toLower]

theorem pyNormChar_eq_slash {c : Char} (h : pyNormChar c = '/') : c = '/' := by
  have h1 : Char.toLower c = '/' := hyphenChar_eq_char (by decide) h
  exact charToNat_inj (toLower_eq_of_toNat (n := 47) (by omega) (congrArg Char.toNat h1))

theorem pyNormChar_eq_newline {c : Char} (h : pyNormChar c = '\n') : c = '\n' := by
  have h1 : Char.toLower c = '\n' := hyphenChar_eq_char (by decide) h
  exact charToNat_inj (toLower_eq_of_toNat (n := 10) (by omega) (congrArg Char.toNat h1))

theorem pyHyphenize_pyToLower (l : List Char) :
    pyHyphenize (pyToLower l) = l.map pyNormChar := by
  unfold pyHyphenize pyToLower pyNormChar
  rw [List.map_map]
  rfl

theorem tailKeep_subset {l : List Char} : tailKeep l ⊆ l := by
  intro a ha
  unfold tailKeep at ha
  split at ha
  · next h =>
    rw [List.mem_singleton] at ha
    subst ha
    exact List.mem_of_mem_getLast? h
  · simp at ha

theorem tailKeep_eq_nil {l : List Char} (hnl : '\n' ∉ l) : tailKeep l = [] := by
  unfold tailKeep
  split
  · next h => exact absurd (List.mem_of_mem_getLast? h) hnl
  · rfl

theorem subSlash_subset : ∀ {l : List Char}, subSlash l ⊆ l := by
  intro l
  induction l with
  | nil => simp [subSlash]
  | cons c cs ih =>
    simp only [subSlash]
    split
    · exact tailKeep_subset
    · intro a ha
      rcases List.mem_cons.mp ha with h | h
      · exact h ▸ List.mem_cons_self c cs
      · exact List.mem_cons_of_mem c (ih h)

theorem subVersion_subset : ∀ {l : List Char}, subVersion l ⊆ l := by
  intro l
  induction l with
  | nil => simp [subVersion]
  | cons c cs ih =>
    simp only [subVersion]
    split
    · exact tailKeep_subset
    · intro a ha
      rcases List.mem_cons.mp ha with h | h
      · exact h ▸ List.mem_cons_self c cs
      · exact List.mem_cons_of_mem c (ih h)

theorem dropLast_no_newline {cs : List Char} (h : '\n' ∉ cs) :
    cs.dropLast.contains '\n' = false := by
  have : '\n' ∉ cs.dropLast := fun hm => h ((List.dropLast_sublist cs).subset hm)
  simpa using this

theorem subSlash_no_slash {l : List Char} (hnl : '\n' ∉ l) : '/' ∉ subSlash l := by
  induction l with
  | nil => simp [subSlash]
  | cons c cs ih =>
    have hnc : '\n' ≠ c := fun h => hnl (h ▸ List.mem_cons_self c cs)
    have hncs : '\n' ∉ cs := fun h => hnl (List.mem_cons_of_mem c h)
    simp only [subSlash]
    split
    · rw [tailKeep_eq_nil hnl]
      simp
    · next hcond =>
      intro hm
      rcases List.mem_cons.mp hm with h | h
      · apply hcond
        rw [← h] at hcond ⊢
        rw [decide_eq_true rfl, Bool.true_and, dropLast_no_newline hncs]
        rfl
      · exact ih hncs h

theorem subSlash_eq_self {l : List Char} (h : '/' ∉ l) : subSlash l = l := by
  induction l with
  | nil => rfl
  | cons c cs ih =>
    have hc : c ≠ '/' := fun he => h (he ▸ List.mem_cons_self c cs)
    have hcs : '/' ∉ cs := fun hm => h (List.mem_cons_of_mem c hm)
    simp only [subSlash]
    rw [if_neg, ih hcs]
    simp [hc]

theorem subVersion_eq_self {l : List Char} (h : hasVerMatch l = false) : subVersion l = l := by
  induction l with
  | nil => rfl
  | cons c cs ih =>
    rw [hasVerMatch, Bool.or_eq_false_iff] at h
    simp only [subVersion]
    rw [if_neg (by rw [h.1]; simp), ih h.2]

theorem wsThen_subVersion {l : List Char} (hnl : '\n' ∉ l)
    (h : wsThen (subVersion l) = true) : wsThen l = true := by
  induction l with
  | nil => simpa [subVersion] using h
  | cons c cs ih =>
    have hncs : '\n' ∉ cs := fun hm => hnl (List.mem_cons_of_mem c hm)
    rw [subVersion] at h
    split at h
    · rw [tailKeep_eq_nil hnl] at h
      exact absurd h (by simp [wsThen])
    · rw [wsThen] at h ⊢
      split at h
      · next hd => rw [if_pos hd, dropLast_no_newline hncs]; rfl
      · next hd =>
        rw [Bool.and_eq_true] at h
        rw [if_neg hd, h.1, Bool.true_and]
        exact ih hncs h.2

theorem hasVerMatch_subVersion {l : List Char} (hnl : '\n' ∉ l) :
    hasVerMatch (subVersion l) = false := by
  induction l with
  | nil => rfl
  | cons c cs ih =>
    have hncs : '\n' ∉ cs := fun hm => hnl (List.mem_cons_of_mem c hm)
    rw [subVersion]
    split
    · rw [tailKeep_eq_nil hnl]
      rfl
    · next hcond =>
      rw [hasVerMatch, Bool.or_eq_false_iff]
      refine ⟨?_, ih hncs⟩
      rw [Bool.and_eq_false_iff]
      cases h1 : isPySpace c with
      | false => exact Or.inl rfl
      | true =>
        right
        cases h2 : wsThen (subVersion cs) with
        | false => rfl
        | true => exact absurd (by rw [h1, wsThen_subVersion hncs h2]; rfl) hcond

theorem wsThen_map_pyNormChar {l : List Char} (hnl : '\n' ∉ l)
    (h : wsThen (l.map pyNormChar) = true) : wsThen l = true := by
  induction l with
  | nil => simp [wsThen] at h
  | cons c cs ih =>
    have hncs : '\n' ∉ cs := fun hm => hnl (List.mem_cons_of_mem c hm)
    rw [List.map_cons, wsThen] at h
    rw [wsThen]
    split at h
    · next hd =>
      have hdc : isPyDigit c = true := by rw [← isPyDigit_pyNormChar]; exact hd
      rw [if_pos hdc, dropLast_no_newline hncs]
      rfl
    · next hd =>
      rw [Bool.and_eq_true] at h
      have hws : isPySpace c = true := isPySpace_pyNormChar h.1
      have hdc : isPyDigit c = false := by
        cases hq : isPyDigit (pyNormChar c) with
        | false => rw [isPyDigit_pyNormChar] at hq; exact hq
        | true => exact absurd hq hd
      rw [if_neg (by rw [hdc]; simp), hws, Bool.true_and]
      exact ih hncs h.2

theorem hasVerMatch_map_pyNormChar {l : List Char} (hnl : '\n' ∉ l)
    (h : hasVerMatch (l.map pyNormChar) = true) : hasVerMatch l = true := by
  induction l with
  | nil => simp [hasVerMatch] at h
  | cons c cs ih =>
    have hncs : '\n' ∉ cs := fun hm => hnl (List.mem_cons_of_mem c hm)
    rw [List.map_cons, hasVerMatch, Bool.or_eq_true] at h
    rw [hasVerMatch, Bool.or_eq_true]
    rcases h with h | h
    · rw [Bool.and_eq_true] at h
      left
      rw [isPySpace_pyNormChar h.1, wsThen_map_pyNormChar hncs h.2]
      rfl
    · exact Or.inr (ih hncs h)

theorem map_pyNormChar_idem (l : List Char) :
    (l.map pyNormChar).map pyNormChar = l.map pyNormChar := by
  rw [List.map_map]
  exact List.map_congr_left (fun a _ => pyNormChar_idem a)

theorem map_no_slash {l : List Char} (h : '/' ∉ l) : '/' ∉ l.map pyNormChar := by
  intro hm
  rcases List.mem_map.mp hm with ⟨c, hc, he⟩
  exact h (pyNormChar_eq_slash he ▸ hc)

theorem map_no_newline {l : List Char} (h : '\n' ∉ l) : '\n' ∉ l.map pyNormChar := by
  intro hm
  rcases List.mem_map.mp hm with ⟨c, hc, he⟩
  exact h (pyNormChar_eq_newline he ▸ hc)

theorem normalize_theme_idem (s : String) :
    normalize_theme_name (normalize_theme_name s) = normalize_theme_name s := by
  unfold normalize_theme_name
  simp only [pyHyphenize_pyToLower]
  exact congrArg String.mk (map_pyNormChar_idem s.data)

theorem normalize_plugin_idem (s : String) (h : '\n' ∉ s.data) :
    normalize_plugin_name (normalize_plugin_name s) = normalize_plugin_name s := by
  unfold normalize_plugin_name
  simp only [pyHyphenize_pyToLower]
  show String.mk ((subVersion (subSlash (((subVersion (subSlash s.data)).map pyNormChar)))).map
    pyNormChar) = String.mk ((subVersion (subSlash s.data)).map pyNormChar)
  have hnl1 : '\n' ∉ subSlash s.data := fun hm => h (subSlash_subset hm)
  have hnl2 : '\n' ∉ subVersion (subSlash s.data) := fun hm => hnl1 (subVersion_subset hm)
  have hs1 : '/' ∉ subSlash s.data := subSlash_no_slash h
  have hs2 : '/' ∉ subVersion (subSlash s.data) := fun hm => hs1 (subVersion_subset hm)
  have hs3 : '/' ∉ (subVersion (subSlash s.data)).map pyNormChar := map_no_slash hs2
  rw [subSlash_eq_self hs3]
  have hv2 : hasVerMatch (subVersion (subSlash s.data)) = false := hasVerMatch_subVersion hnl1
  have hv3 : hasVerMatch ((subVersion (subSlash s.data)).map pyNormChar) = false := by
    cases hq : hasVerMatch ((subVersion (subSlash s.data)).map pyNormChar) with
    | false => rfl
    | true =>
      rw [hasVerMatch_map_pyNormChar hnl2 hq] at hv2
      exact Bool.noConfusion hv2
  rw [subVersion_eq_self hv3]
  exact congrArg String.mk (map_pyNormChar_idem _)

theorem mem_dedupFirst {α : Type} [DecidableEq α] {a : α} :
    ∀ {l : List α}, a ∈ dedupFirst l ↔ a ∈ l := by
  intro l
  induction l with
  | nil => simp [dedupFirst]
  | cons x xs ih =>
    simp only [dedupFirst, List.mem_cons, List.mem_filter, decide_eq_true_eq]
    constructor
    · rintro (h | ⟨h, _⟩)
      · exact Or.inl h
      · exact Or.inr (ih.mp h)
    · rintro (h | h)
      · exact Or.inl h
      · by_cases hx : a = x
        · exact Or.inl hx
        · exact Or.inr ⟨ih.mpr h, hx⟩

theorem nodup_dedupFirst {α : Type} [DecidableEq α] : ∀ (l : List α), (dedupFirst l).Nodup := by
  intro l
  induction l with
  | nil => simp [dedupFirst]
  | cons x xs ih =>
    rw [dedupFirst, List.nodup_cons]
    constructor
    · intro hm
      rw [List.mem_filter, decide_eq_true_eq] at hm
      exact hm.2 rfl
    · exact ih.filter _

theorem dedupFirst_eq_self {α : Type} [DecidableEq α] {l : List α} (h : l.Nodup) :
    dedupFirst l = l := by
  induction l with
  | nil => rfl
  | cons x xs ih =>
    rw [List.nodup_cons] at h
    rw [dedupFirst, ih h.2, List.filter_eq_self.mpr]
    intro a ha
    rw [decide_eq_true_eq]
    intro he
    exact h.1 (he ▸ ha)

theorem dedupFirst_idem {α : Type} [DecidableEq α] (l : List α) :
    dedupFirst (dedupFirst l) = dedupFirst l :=
  dedupFirst_eq_self (nodup_dedupFirst l)

theorem dedupFirst_count_eq_one {α : Type} [DecidableEq α] {a : α} {l : List α} (h : a ∈ l) :
    (dedupFirst l).count a = 1 :=
  List.count_eq_one_of_mem (nodup_dedupFirst l) (mem_dedupFirst.mpr h)

theorem dedupFirst_eq_nil_iff {α : Type} [DecidableEq α] {l : List α} :
    dedupFirst l = [] ↔ l = [] := by
  cases l with
  | nil => simp [dedupFirst]
  | cons x xs => simp [dedupFirst]

theorem indexOf_filter_lt_iff {α : Type} [DecidableEq α] (p : α → Bool) :
    ∀ (l : List α) (a b : α), a ≠ b → p a = true → p b = true → a ∈ l → b ∈ l →
      (List.indexOf a (l.filter p) < List.indexOf b (l.filter p) ↔
        List.indexOf a l < List.indexOf b l) := by
  intro l
  induction l with
  | nil => intro a b _ _ _ ha _; exact absurd ha (List.not_mem_nil a)
  | cons c l' ih =>
    intro a b hab hpa hpb ha hb
    by_cases hca : c = a
    · subst hca
      rw [List.filter_cons_of_pos hpa, List.indexOf_cons_self, List.indexOf_cons_self,
        List.indexOf_cons_ne _ hab, List.indexOf_cons_ne _ hab]
      simp
    · by_cases hcb : c = b
      · subst hcb
        rw [List.filter_cons_of_pos hpb, List.indexOf_cons_self, List.indexOf_cons_self,
          List.indexOf_cons_ne _ (fun h => hab h.symm),
          List.indexOf_cons_ne _ (fun h => hab h.symm)]
        simp
      · have ha' : a ∈ l' := by
          rcases List.mem_cons.mp ha with h | h
          · exact absurd h.symm hca
          · exact h
        have hb' : b ∈ l' := by
          rcases List.mem_cons.mp hb with h | h
          · exact absurd h.symm hcb
          · exact h
        by_cases hpc : p c = true
        · rw [List.filter_cons_of_pos hpc, List.indexOf_cons_ne _ hca,
            List.indexOf_cons_ne _ hcb, List.indexOf_cons_ne _ hca,
            List.indexOf_cons_ne _ hcb, Nat.succ_lt_succ_iff, Nat.succ_lt_succ_iff]
          exact ih a b hab hpa hpb ha' hb'
        · rw [List.filter_cons_of_neg (by simpa using hpc), List.indexOf_cons_ne _ hca,
            List.indexOf_cons_ne _ hcb, Nat.succ_lt_succ_iff]
          exact ih a b hab hpa hpb ha' hb'

theorem dedupFirst_indexOf_lt_iff {α : Type} [DecidableEq α] :
    ∀ (l : List α) (a b : α), a ≠ b → a ∈ l → b ∈ l →
      (List.indexOf a (dedupFirst l) < List.indexOf b (dedupFirst l) ↔
        List.indexOf a l < List.indexOf b l) := by
  intro l
  induction l with
  | nil => intro a b _ ha _; exact absurd ha (List.not_mem_nil a)
  | cons x xs ih =>
    intro a b hab ha hb
    by_cases hxa : x = a
    · subst hxa
      rw [dedupFirst, List.indexOf_cons_self, List.indexOf_cons_self,
        List.indexOf_cons_ne _ hab, List.indexOf_cons_ne _ hab]
      simp
    · by_cases hxb : x = b
      · subst hxb
        rw [dedupFirst, List.indexOf_cons_self, List.indexOf_cons_self,
          List.indexOf_cons_ne _ (fun h => hab h.symm),
          List.indexOf_cons_ne _ (fun h => hab h.symm)]
        simp
      · have ha' : a ∈ xs := by
          rcases List.mem_cons.mp ha with h | h
          · exact absurd h.symm hxa
          · exact h
        have hb' : b ∈ xs := by
          rcases List.mem_cons.mp hb with h | h
          · exact absurd h.symm hxb
          · exact h
        rw [dedupFirst, List.indexOf_cons_ne _ hxa, List.indexOf_cons_ne _ hxb,
          List.indexOf_cons_ne _ hxa, List.indexOf_cons_ne _ hxb,
          Nat.succ_lt_succ_iff, Nat.succ_lt_succ_iff]
        rw [indexOf_filter_lt_iff _ (dedupFirst xs) a b hab
          (by simpa using fun h => hxa h.symm) (by simpa using fun h => hxb h.symm)
          (mem_dedupFirst.mpr ha') (mem_dedupFirst.mpr hb')]
        exact ih a b hab ha' hb'

theorem dedup_append_lt {α : Type} [DecidableEq α] {u v : List α} {a b : α}
    (ha : a ∈ u) (hb : b ∉ u) (hbv : b ∈ v) :
    List.indexOf a (dedupFirst (u ++ v)) < List.indexOf b (dedupFirst (u ++ v)) := by
  have hab : a ≠ b := fun h => hb (h ▸ ha)
  have hau : a ∈ u ++ v := List.mem_append.mpr (Or.inl ha)
  have hbu : b ∈ u ++ v := List.mem_append.mpr (Or.inr hbv)
  rw [dedupFirst_indexOf_lt_iff (u ++ v) a b hab hau hbu,
    List.indexOf_append_of_mem ha, List.indexOf_append_of_not_mem hb]
  calc List.indexOf a u < u.length := List.indexOf_lt_length.mpr ha
    _ ≤ u.length + List.indexOf b v := Nat.le_add_right _ _

theorem processPlugin_fields (st : Stores) (acc : LoopState) (p : String) :
    (processPlugin st acc p).js_exclusions = acc.js_exclusions ++ pluginContrib st .js p ∧
    (processPlugin st acc p).delay_js_exclusions =
      acc.delay_js_exclusions ++ pluginContrib st .delayJs p ∧
    (processPlugin st acc p).rucss_excluded_stylesheets =
      acc.rucss_excluded_stylesheets ++ pluginContrib st .stylesheets p ∧
    (processPlugin st acc p).plugins_processed =
      acc.plugins_processed + (if pluginHit st p then 1 else 0) ∧
    (processPlugin st acc p).themes_processed = acc.themes_processed := by
  unfold processPlugin pluginContrib pluginHit
  cases h1 : truthyLookup st.rucss_dict.plugins (normalize_plugin_name p) <;>
    cases h2 : truthyLookup st.delayjs_dict.plugins (normalize_plugin_name p) <;>
      cases h3 : truthyLookup st.js_dict.plugins (normalize_plugin_name p) <;>
        simp [h1, h2, h3]

theorem processTheme_fields (st : Stores) (acc : LoopState) (t : String) :
    (processTheme st acc t).js_exclusions = acc.js_exclusions ++ themeContrib st .js t ∧
    (processTheme st acc t).delay_js_exclusions =
      acc.delay_js_exclusions ++ themeContrib st .delayJs t ∧
    (processTheme st acc t).rucss_excluded_stylesheets =
      acc.rucss_excluded_stylesheets ++ themeContrib st .stylesheets t ∧
    (processTheme st acc t).themes_processed =
      acc.themes_processed + (if themeHit st t then 1 else 0) ∧
    (processTheme st acc t).plugins_processed = acc.plugins_processed := by
  unfold processTheme themeContrib themeHit
  cases h1 : truthyLookup st.rucss_dict.themes (normalize_theme_name t) <;>
    cases h2 : truthyLookup st.delayjs_dict.themes (normalize_theme_name t) <;>
      cases h3 : truthyLookup st.js_dict.themes (normalize_theme_name t) <;>
        simp [h1, h2, h3]

theorem foldl_processPlugin (st : Stores) :
    ∀ (ps : List String) (acc : LoopState),
      (ps.foldl (processPlugin st) acc).js_exclusions =
        acc.js_exclusions ++ plugSeg st ps .js ∧
      (ps.foldl (processPlugin st) acc).delay_js_exclusions =
        acc.delay_js_exclusions ++ plugSeg st ps .delayJs ∧
      (ps.foldl (processPlugin st) acc).rucss_excluded_stylesheets =
        acc.rucss_excluded_stylesheets ++ plugSeg st ps .stylesheets ∧
      (ps.foldl (processPlugin st) acc).plugins_processed =
        acc.plugins_processed + ps.countP (pluginHit st) ∧
      (ps.foldl (processPlugin st) acc).themes_processed = acc.themes_processed := by
  intro ps
  induction ps with
  | nil => intro acc; simp [plugSeg]
  | cons p ps ih =>
    intro acc
    rw [List.foldl_cons]
    obtain ⟨i1, i2, i3, i4, i5⟩ := ih (processPlugin st acc p)
    obtain ⟨s1, s2, s3, s4, s5⟩ := processPlugin_fields st acc p
    refine ⟨?_, ?_, ?_, ?_, ?_⟩
    · rw [i1, s1]; simp [plugSeg, List.flatMap_cons, List.append_assoc]
    · rw [i2, s2]; simp [plugSeg, List.flatMap_cons, List.append_assoc]
    · rw [i3, s3]; simp [plugSeg, List.flatMap_cons, List.append_assoc]
    · rw [i4, s4, List.countP_cons]
      by_cases hp : pluginHit st p
      · simp [hp]; omega
      · simp [hp]

    · rw [i5, s5]

theorem foldl_processTheme (st : Stores) :
    ∀ (ts : List String) (acc : LoopState),
      (ts.foldl (processTheme st) acc).js_exclusions =
        acc.js_exclusions ++ thmSeg st ts .js ∧
      (ts.foldl (processTheme st) acc).delay_js_exclusions =
        acc.delay_js_exclusions ++ thmSeg st ts .delayJs ∧
      (ts.foldl (processTheme st) acc).rucss_excluded_stylesheets =
        acc.rucss_excluded_stylesheets ++ thmSeg st ts .stylesheets ∧
      (ts.foldl (processTheme st) acc).themes_processed =
        acc.themes_processed + ts.countP (themeHit st) ∧
      (ts.foldl (processTheme st) acc).plugins_processed = acc.plugins_processed := by
  intro ts
  induction ts with
  | nil => intro acc; simp [thmSeg]
  | cons t ts ih =>
    intro acc
    rw [List.foldl_cons]
    obtain ⟨i1, i2, i3, i4, i5⟩ := ih (processTheme st acc t)
    obtain ⟨s1, s2, s3, s4, s5⟩ := processTheme_fields st acc t
    refine ⟨?_, ?_, ?_, ?_, ?_⟩
    · rw [i1, s1]; simp [thmSeg, List.flatMap_cons, List.append_assoc]
    · rw [i2, s2]; simp [thmSeg, List.flatMap_cons, List.append_assoc]
    · rw [i3, s3]; simp [thmSeg, List.flatMap_cons, List.append_assoc]
    · rw [i4, s4, List.countP_cons]
      by_cases ht : themeHit st t
      · simp [ht]; omega
      · simp [ht]
    · rw [i5, s5]

theorem isEmpty_false_of_ne {l : List String} (h : l ≠ []) : l.isEmpty = false := by
  cases l with
  | nil => exact absurd rfl h
  | cons x xs => rfl

theorem anyValues_of_cat {ad : AdExclusions} {c : Category} (h : ad.cat c ≠ []) :
    ad.anyValues = true := by
  cases c <;>
    (simp only [AdExclusions.cat] at h
     simp [AdExclusions.anyValues, isEmpty_false_of_ne h])

theorem adSeg_eq (ad : AdExclusions) (analyze : Bool) (domain : String) (c : Category) :
    adSeg ad analyze domain c = if analyze && domain != "" then ad.cat c else [] := by
  unfold adSeg
  by_cases h : ad.cat c = []
  · rw [h]; simp
  · rw [anyValues_of_cat h, Bool.and_true]

theorem plugSeg_selectors (st : Stores) (ps : List String) : plugSeg st ps .selectors = [] := by
  simp [plugSeg, pluginContrib]

theorem plugSeg_minifyCss (st : Stores) (ps : List String) : plugSeg st ps .minifyCss = [] := by
  simp [plugSeg, pluginContrib]

theorem plugSeg_minifyJs (st : Stores) (ps : List String) : plugSeg st ps .minifyJs = [] := by
  simp [plugSeg, pluginContrib]

theorem thmSeg_selectors (st : Stores) (ts : List String) : thmSeg st ts .selectors = [] := by
  simp [thmSeg, themeContrib]

theorem thmSeg_minifyCss (st : Stores) (ts : List String) : thmSeg st ts .minifyCss = [] := by
  simp [thmSeg, themeContrib]

theorem thmSeg_minifyJs (st : Stores) (ts : List String) : thmSeg st ts .minifyJs = [] := by
  simp [thmSeg, themeContrib]

theorem generate_config_cat (st : Stores) (ad : AdExclusions) (plugins : List String)
    (theme domain : String) (analyze_domain : Bool) (themes : Option (List String))
    (theme_parent theme_child : Option String) (c : Category) :
    (generate_config st ad plugins theme domain analyze_domain themes theme_parent
        theme_child).exclusions.cat c =
      dedupFirst (mergedCat st ad plugins analyze_domain domain
        (themesToProcess themes theme_parent theme_child theme) c) := by
  cases c with
  | js =>
    simp only [generate_config, ExclusionSet.cat]
    rw [(foldl_processTheme st _ _).1, (foldl_processPlugin st _ _).1]
    simp only [mergedCat, univSeg, adSeg, AdExclusions.cat, List.append_assoc]
  | delayJs =>
    simp only [generate_config, ExclusionSet.cat]
    rw [(foldl_processTheme st _ _).2.1, (foldl_processPlugin st _ _).2.1]
    simp only [mergedCat, univSeg, adSeg, AdExclusions.cat, List.append_assoc]
  | stylesheets =>
    simp only [generate_config, ExclusionSet.cat]
    rw [(foldl_processTheme st _ _).2.2.1, (foldl_processPlugin st _ _).2.2.1]
    simp only [mergedCat, univSeg, adSeg, AdExclusions.cat, List.append_assoc]
  | selectors =>
    simp only [generate_config, ExclusionSet.cat, mergedCat, univSeg, adSeg, AdExclusions.cat,
      plugSeg_selectors, thmSeg_selectors, List.append_nil, List.nil_append]
  | minifyCss =>
    simp only [generate_config, ExclusionSet.cat, mergedCat, univSeg, adSeg, AdExclusions.cat,
      plugSeg_minifyCss, thmSeg_minifyCss, List.append_nil, List.nil_append]
  | minifyJs =>
    simp only [generate_config, ExclusionSet.cat, mergedCat, univSeg, adSeg, AdExclusions.cat,
      plugSeg_minifyJs, thmSeg_minifyJs, List.append_nil, List.nil_append]

theorem generate_config_counts (st : Stores) (ad : AdExclusions) (plugins : List String)
    (theme domain : String) (analyze_domain : Bool) (themes : Option (List String))
    (theme_parent theme_child : Option String) :
    (generate_config st ad plugins theme domain analyze_domain themes theme_parent
        theme_child).processing_info.plugins_processed = plugins.countP (pluginHit st) ∧
    (generate_config st ad plugins theme domain analyze_domain themes theme_parent
        theme_child).processing_info.themes_processed =
      (themesToProcess themes theme_parent theme_child theme).countP (themeHit st) := by
  constructor
  · simp only [generate_config]
    rw [(foldl_processTheme st _ _).2.2.2.2, (foldl_processPlugin st _ _).2.2.2.1]
    simp
  · simp only [generate_config]
    rw [(foldl_processTheme st _ _).2.2.2.1, (foldl_processPlugin st _ _).2.2.2.2]
    simp

theorem themesToProcess_some_of_ne {ts : List String} (h : ts ≠ []) (a b : Option String)
    (t : String) : themesToProcess (some ts) a b t = dedupFirst ts := by
  simp only [themesToProcess, isEmpty_false_of_ne h, Bool.false_eq_true, if_false]

theorem generate_config_tp_congr (st : Stores) (ad : AdExclusions) (plugins : List String)
    (domain : String) (analyze : Bool) {themes1 themes2 : Option (List String)}
    {a1 a2 b1 b2 : Option String} {t1 t2 : String}
    (h : themesToProcess themes1 a1 b1 t1 = themesToProcess themes2 a2 b2 t2) :
    generate_config st ad plugins t1 domain analyze themes1 a1 b1 =
      generate_config st ad plugins t2 domain analyze themes2 a2 b2 := by
  unfold generate_config
  rw [h]

theorem themesToProcess_roundtrip (ts : List String) :
    themesToProcess (some (dedupFirst ts)) none none "" = dedupFirst ts := by
  by_cases h : ts = []
  · subst h
    rfl
  · have h1 : dedupFirst ts ≠ [] := fun he => h (dedupFirst_eq_nil_iff.mp he)
    rw [themesToProcess_some_of_ne h1]
    exact dedupFirst_idem ts

/-- C1.  The claim as stated is false: the source never evaluates compound
rules.  Here a compound rule sits in the RUCSS dictionary, every one of its
required plugins normalizes into the plugin key set, its required theme is
in themesToProcess, yet its fragment token is absent from the merged
stylesheet exclusions. -/
theorem C1_counterexample :
    compoundRuleW ∈ compoundStores.rucss_dict.compound_rules ∧
    (∀ rp ∈ compoundRuleW.required_plugins, rp ∈ ["a"].map normalize_plugin_name) ∧
    compoundRuleW.required_theme = some "t" ∧
    "t" ∈ themesToProcess (some ["t"]) none none "default" ∧
    "compound.css" ∈ entryGet compoundRuleW.fragment "rucss_excluded_stylesheets" ∧
    "compound.css" ∉ (generate_config compoundStores noAds ["a"] "default" "" false
      (some ["t"]) none none).exclusions.rucss_excluded_stylesheets := by
  decide

/-- C1, amended: generate_config never reads the compound-rule entries of any
dictionary, so its result is invariant under replacing them; in particular
no compound fragment is ever appended, whether or not the activation
conditions hold. -/
theorem C1_compound_rules_ignored (st : Stores) (ad : AdExclusions) (plugins : List String)
    (theme domain : String) (analyze_domain : Bool) (themes : Option (List String))
    (theme_parent theme_child : Option String) (r1 r2 r3 : List CompoundRule) :
    generate_config
      ⟨{ st.rucss_dict with compound_rules := r1 },
       { st.delayjs_dict with compound_rules := r2 },
       { st.js_dict with compound_rules := r3 }⟩
      ad plugins theme domain analyze_domain themes theme_parent theme_child =
    generate_config st ad plugins theme domain analyze_domain themes theme_parent
      theme_child := rfl

/-- C2.  The claim as stated is false: in the specification's own scenario
the woocommerce rule lives in the JS dictionary, the counter only counts
RUCSS dictionary hits, and pluginsProcessed comes out 0, not 1. -/
theorem C2_counterexample :
    (generate_config scenStores noAds ["WooCommerce"] "default" "" false (some ["Astra"])
      none none).processing_info.plugins_processed = 0 ∧
    (generate_config scenStores noAds ["WooCommerce"] "default" "" false (some ["Astra"])
      none none).processing_info.plugins_processed ≠ 1 := by
  decide

/-- C2, amended: pluginsProcessed counts the entries of the plugin list, in
original non-deduplicated order, whose normalized key has a truthy entry in
the RUCSS plugins dictionary specifically (themesProcessed likewise over
themesToProcess and the RUCSS themes dictionary); in the scenario the
script and stylesheet exclusions come out as claimed but the counters are
pluginsProcessed = 0 and themesProcessed = 1. -/
theorem C2_processed_counts :
    (∀ (st : Stores) (ad : AdExclusions) (plugins : List String) (theme domain : String)
      (analyze_domain : Bool) (themes : Option (List String))
      (theme_parent theme_child : Option String),
      (generate_config st ad plugins theme domain analyze_domain themes theme_parent
        theme_child).processing_info =
        ⟨plugins.countP (pluginHit st),
         (themesToProcess themes theme_parent theme_child theme).countP (themeHit st)⟩) ∧
    (generate_config scenStores noAds ["WooCommerce"] "default" "" false (some ["Astra"])
      none none).exclusions.js_exclusions = ["woocommerce.min.js"] ∧
    (generate_config scenStores noAds ["WooCommerce"] "default" "" false (some ["Astra"])
      none none).exclusions.rucss_excluded_stylesheets = ["astra.css"] ∧
    (generate_config scenStores noAds ["WooCommerce"] "default" "" false (some ["Astra"])
      none none).processing_info = ⟨0, 1⟩ := by
  refine ⟨fun st ad plugins theme domain analyze themes tpar tch => ?_, by decide, by decide,
    by decide⟩
  obtain ⟨h1, h2⟩ := generate_config_counts st ad plugins theme domain analyze themes tpar tch
  have he : (generate_config st ad plugins theme domain analyze themes tpar
      tch).processing_info =
      ⟨(generate_config st ad plugins theme domain analyze themes tpar
          tch).processing_info.plugins_processed,
       (generate_config st ad plugins theme domain analyze themes tpar
          tch).processing_info.themes_processed⟩ := rfl
  rw [he, h1, h2]

/-- C3.  The claim as stated is false: the source's theme normalizer strips
no version suffix, so the example input keeps its version marker. -/
theorem C3_counterexample :
    normalize_theme_name "Kadence Child v1.2" = "kadence-child-v1.2" ∧
    normalize_theme_name "Kadence Child v1.2" ≠ "kadence-child" := by
  decide

/-- C3, amended: normalizeTheme lowercases and replaces spaces and
underscores with hyphens, character by character, and strips nothing;
the example normalizes to kadence-child-v1.2, and the Kadence override
still triggers because detection substring-matches the raw lowercased
name. -/
theorem C3_theme_normalization :
    (∀ s : String, normalize_theme_name s = String.mk (s.data.map pyNormChar)) ∧
    normalize_theme_name "Kadence Child v1.2" = "kadence-child-v1.2" ∧
    normalize_theme_name "astra-v2" = "astra-v2" ∧
    normalize_theme_name "foo-1.2" = "foo-1.2" ∧
    is_kadence_theme ["Kadence Child v1.2"] = true := by
  refine ⟨fun s => ?_, by decide, by decide, by decide, by decide⟩
  unfold normalize_theme_name
  rw [pyHyphenize_pyToLower]

/-- C4.  The claim as stated is false: load_configurations assigns the four
files one by one onto the live snapshot, so a failure on the third file
leaves the template and the RUCSS dictionary already overwritten. -/
theorem C4_counterexample :
    (load_configurations filesPartial stateOld).1 = false ∧
    (load_configurations filesPartial stateOld).2 ≠ stateOld ∧
    (load_configurations filesPartial stateOld).2.template_string = "NEW" ∧
    (load_configurations filesPartial stateOld).2.rucss_dict = dictW ∧
    (load_configurations filesPartial stateOld).2.delayjs_dict = stateOld.delayjs_dict := by
  decide

/-- C4, amended: a failed reload keeps the prior snapshot only for the files
after the failing one; the fields read before the failure are already
replaced.  The state is fully unchanged only when the first file, the
template, is missing. -/
theorem C4_reload_stages (fs : ConfigFiles) (st : GeneratorState) :
    (fs.template_file = none → load_configurations fs st = (false, st)) ∧
    (∀ t, fs.template_file = some t → fs.rucss_file = none →
      load_configurations fs st = (false, { st with template_string := pyStrip t })) ∧
    (∀ t r, fs.template_file = some t → fs.rucss_file = some r → fs.delayjs_file = none →
      load_configurations fs st =
        (false, { st with template_string := pyStrip t, rucss_dict := r })) ∧
    (∀ t r d, fs.template_file = some t → fs.rucss_file = some r →
      fs.delayjs_file = some d → fs.js_file = none →
      load_configurations fs st =
        (false, { st with template_string := pyStrip t, rucss_dict := r, delayjs_dict := d })) ∧
    (∀ t r d j, fs.template_file = some t → fs.rucss_file = some r →
      fs.delayjs_file = some d → fs.js_file = some j →
      load_configurations fs st = (true, ⟨pyStrip t, r, d, j⟩)) := by
  refine ⟨?_, ?_, ?_, ?_, ?_⟩
  · intro h
    simp [load_configurations, h]
  · intro t h1 h2
    simp [load_configurations, h1, h2]
  · intro t r h1 h2 h3
    simp [load_configurations, h1, h2, h3]
  · intro t r d h1 h2 h3 h4
    simp [load_configurations, h1, h2, h3, h4]
  · intro t r d j h1 h2 h3 h4
    simp [load_configurations, h1, h2, h3, h4]

/-- C4 witness: the staged characterization applied to the concrete failing
reload. -/
theorem C4_witness :
    filesPartial.template_file = some "NEW" ∧ filesPartial.rucss_file = some dictW ∧
    filesPartial.delayjs_file = none ∧
    load_configurations filesPartial stateOld =
      (false, { stateOld with template_string := pyStrip "NEW", rucss_dict := dictW }) :=
  ⟨rfl, rfl, rfl, (C4_reload_stages filesPartial stateOld).2.2.1 "NEW" dictW rfl rfl rfl⟩

/-- C5.  Dedup law, confirmed: in every output category no token appears
twice, every contributed token appears exactly once, and the output order
of two distinct contributed tokens matches the order of their first
contributions in the merged pre-deduplication sequence. -/
theorem C5_dedup_law (st : Stores) (ad : AdExclusions) (plugins : List String)
    (theme domain : String) (analyze_domain : Bool) (themes : Option (List String))
    (theme_parent theme_child : Option String) (c : Category) :
    ((generate_config st ad plugins theme domain analyze_domain themes theme_parent
      theme_child).exclusions.cat c).Nodup ∧
    (∀ a, a ∈ mergedCat st ad plugins analyze_domain domain
        (themesToProcess themes theme_parent theme_child theme) c →
      ((generate_config st ad plugins theme domain analyze_domain themes theme_parent
        theme_child).exclusions.cat c).count a = 1) ∧
    (∀ a b, a ∈ mergedCat st ad plugins analyze_domain domain
        (themesToProcess themes theme_parent theme_child theme) c →
      b ∈ mergedCat st ad plugins analyze_domain domain
        (themesToProcess themes theme_parent theme_child theme) c →
      a ≠ b →
      (List.indexOf a ((generate_config st ad plugins theme domain analyze_domain themes
          theme_parent theme_child).exclusions.cat c) <
        List.indexOf b ((generate_config st ad plugins theme domain analyze_domain themes
          theme_parent theme_child).exclusions.cat c) ↔
        List.indexOf a (mergedCat st ad plugins analyze_domain domain
          (themesToProcess themes theme_parent theme_child theme) c) <
        List.indexOf b (mergedCat st ad plugins analyze_domain domain
          (themesToProcess themes theme_parent theme_child theme) c))) := by
  rw [generate_config_cat st ad plugins theme domain analyze_domain themes theme_parent
    theme_child c]
  exact ⟨nodup_dedupFirst _, fun a ha => dedupFirst_count_eq_one ha,
    fun a b ha hb hab => dedupFirst_indexOf_lt_iff _ a b hab ha hb⟩

/-- C5 witness: with the scenario store and the plugin listed twice, the
token contributed twice appears exactly once in the output. -/
theorem C5_witness :
    "woocommerce.min.js" ∈ mergedCat scenStores noAds ["WooCommerce", "WooCommerce"] false ""
      (themesToProcess (some ["Astra"]) none none "default") Category.js ∧
    ((generate_config scenStores noAds ["WooCommerce", "WooCommerce"] "default" "" false
      (some ["Astra"]) none none).exclusions.cat Category.js).count "woocommerce.min.js" = 1 :=
  ⟨by decide,
   (C5_dedup_law scenStores noAds ["WooCommerce", "WooCommerce"] "default" "" false
     (some ["Astra"]) none none Category.js).2.1 "woocommerce.min.js" (by decide)⟩

/-- C6.  Merge order, confirmed: every output category is the first-kept
deduplication of universal, then detected-provider, then plugin (in input
order), then theme (in themesToProcess order) contributions; tokens first
contributed by an earlier step precede tokens first contributed by a later
one, and the category's output depends only on that category's own
fragments. -/
theorem C6_merge_order (st : Stores) (ad : AdExclusions) (plugins : List String)
    (theme domain : String) (analyze_domain : Bool) (themes : Option (List String))
    (theme_parent theme_child : Option String) (c : Category) :
    ((generate_config st ad plugins theme domain analyze_domain themes theme_parent
      theme_child).exclusions.cat c =
      dedupFirst (univSeg st c ++ adSeg ad analyze_domain domain c ++ plugSeg st plugins c ++
        thmSeg st (themesToProcess themes theme_parent theme_child theme) c)) ∧
    (∀ a b, a ∈ univSeg st c → b ∉ univSeg st c →
      b ∈ mergedCat st ad plugins analyze_domain domain
        (themesToProcess themes theme_parent theme_child theme) c →
      List.indexOf a ((generate_config st ad plugins theme domain analyze_domain themes
        theme_parent theme_child).exclusions.cat c) <
      List.indexOf b ((generate_config st ad plugins theme domain analyze_domain themes
        theme_parent theme_child).exclusions.cat c)) ∧
    (∀ a b, a ∈ univSeg st c ++ adSeg ad analyze_domain domain c →
      b ∉ univSeg st c ++ adSeg ad analyze_domain domain c →
      b ∈ mergedCat st ad plugins analyze_domain domain
        (themesToProcess themes theme_parent theme_child theme) c →
      List.indexOf a ((generate_config st ad plugins theme domain analyze_domain themes
        theme_parent theme_child).exclusions.cat c) <
      List.indexOf b ((generate_config st ad plugins theme domain analyze_domain themes
        theme_parent theme_child).exclusions.cat c)) ∧
    (∀ a b, a ∈ univSeg st c ++ adSeg ad analyze_domain domain c ++ plugSeg st plugins c →
      b ∉ univSeg st c ++ adSeg ad analyze_domain domain c ++ plugSeg st plugins c →
      b ∈ mergedCat st ad plugins analyze_domain domain
        (themesToProcess themes theme_parent theme_child theme) c →
      List.indexOf a ((generate_config st ad plugins theme domain analyze_domain themes
        theme_parent theme_child).exclusions.cat c) <
      List.indexOf b ((generate_config st ad plugins theme domain analyze_domain themes
        theme_parent theme_child).exclusions.cat c)) ∧
    (∀ (st2 : Stores) (ad2 : AdExclusions),
      univSeg st2 c = univSeg st c → ad2.cat c = ad.cat c →
      (∀ p, pluginContrib st2 c p = pluginContrib st c p) →
      (∀ t, themeContrib st2 c t = themeContrib st c t) →
      (generate_config st2 ad2 plugins theme domain analyze_domain themes theme_parent
        theme_child).exclusions.cat c =
      (generate_config st ad plugins theme domain analyze_domain themes theme_parent
        theme_child).exclusions.cat c) := by
  have hc := generate_config_cat st ad plugins theme domain analyze_domain themes theme_parent
    theme_child c
  refine ⟨hc, ?_, ?_, ?_, ?_⟩
  · intro a b ha hb hbm
    rw [hc]
    simp only [mergedCat] at hbm ⊢
    rw [List.append_assoc, List.append_assoc] at hbm ⊢
    exact dedup_append_lt ha hb ((List.mem_append.mp hbm).resolve_left hb)
  · intro a b ha hb hbm
    rw [hc]
    simp only [mergedCat] at hbm ⊢
    rw [List.append_assoc] at hbm ⊢
    exact dedup_append_lt ha hb ((List.mem_append.mp hbm).resolve_left hb)
  · intro a b ha hb hbm
    rw [hc]
    simp only [mergedCat] at hbm ⊢
    exact dedup_append_lt ha hb ((List.mem_append.mp hbm).resolve_left hb)
  · intro st2 ad2 hu had hp ht
    rw [hc, generate_config_cat st2 ad2 plugins theme domain analyze_domain themes theme_parent
      theme_child c]
    apply congrArg dedupFirst
    simp only [mergedCat]
    rw [hu, adSeg_eq, adSeg_eq, had,
      show plugSeg st2 plugins c = plugSeg st plugins c from congrArg _ (funext hp),
      show thmSeg st2 (themesToProcess themes theme_parent theme_child theme) c =
          thmSeg st (themesToProcess themes theme_parent theme_child theme) c from
        congrArg _ (funext ht)]

/-- C6 witness: with a universal JS token and a plugin JS token, the
universal one precedes the plugin one in the output. -/
theorem C6_witness :
    "u.js" ∈ univSeg orderStores Category.js ∧
    "p.js" ∉ univSeg orderStores Category.js ∧
    "p.js" ∈ mergedCat orderStores noAds ["p"] false ""
      (themesToProcess none none none "default") Category.js ∧
    List.indexOf "u.js" ((generate_config orderStores noAds ["p"] "default" "" false none none
      none).exclusions.cat Category.js) <
    List.indexOf "p.js" ((generate_config orderStores noAds ["p"] "default" "" false none none
      none).exclusions.cat Category.js) :=
  ⟨by decide, by decide, by decide,
   (C6_merge_order orderStores noAds ["p"] "default" "" false none none none
     Category.js).2.1 "u.js" "p.js" (by decide) (by decide) (by decide)⟩

/-- C7.  The claim as stated is false: normalize_plugin_name is not
idempotent on every input.  On the three-character input slash, line feed,
five the version pattern can anchor before the end while the slash pattern
cannot, so one pass yields the lone slash, and a second pass erases it. -/
theorem C7_counterexample :
    normalize_plugin_name "/\n5" = "/" ∧
    normalize_plugin_name "/" = "" ∧
    normalize_plugin_name (normalize_plugin_name "/\n5") ≠ normalize_plugin_name "/\n5" := by
  decide

/-- C7, amended: both normalizers are total functions; normalize_theme_name
is idempotent on every string, and normalize_plugin_name is idempotent on
every string that contains no line feed. -/
theorem C7_normalizer_idempotent :
    (∀ s : String, normalize_theme_name (normalize_theme_name s) = normalize_theme_name s) ∧
    (∀ s : String, '\n' ∉ s.data →
      normalize_plugin_name (normalize_plugin_name s) = normalize_plugin_name s) :=
  ⟨normalize_theme_idem, normalize_plugin_idem⟩

/-- C7 witness: plugin idempotence applied at a concrete line-feed-free
input. -/
theorem C7_witness :
    '\n' ∉ ("WooCommerce 5".data) ∧
    normalize_plugin_name (normalize_plugin_name "WooCommerce 5") =
      normalize_plugin_name "WooCommerce 5" :=
  ⟨by decide, C7_normalizer_idempotent.2 "WooCommerce 5" (by decide)⟩

/-- C8.  The claim as stated is false: a provided-but-empty themes list is
falsy in Python, so the source falls back to the legacy fields instead of
using the empty list as the full theme set. -/
theorem C8_counterexample :
    themesToProcess (some []) (some "astra") none "" = ["astra"] ∧
    themesToProcess (some []) (some "astra") none "" ≠ dedupFirst [] := by
  decide

/-- C8, amended: a provided non-empty themes list is used as the full theme
set, deduplicated preserving first-seen order, and then the legacy fields
are irrelevant to the whole result; when themes is absent or empty the
processed sequence is the deduplicated legacy fallback of theme_parent,
then theme_child when truthy and distinct, then theme as a last resort. -/
theorem C8_theme_selection (st : Stores) (ad : AdExclusions) (plugins : List String)
    (domain : String) (analyze_domain : Bool) (ts : List String)
    (theme_parent theme_child : Option String) (theme : String) :
    (ts ≠ [] → themesToProcess (some ts) theme_parent theme_child theme = dedupFirst ts) ∧
    (ts ≠ [] → generate_config st ad plugins theme domain analyze_domain (some ts)
        theme_parent theme_child =
      generate_config st ad plugins "" domain analyze_domain (some (dedupFirst ts))
        none none) ∧
    (themesToProcess none theme_parent theme_child theme =
      dedupFirst (fallbackThemes theme_parent theme_child theme)) ∧
    (themesToProcess (some []) theme_parent theme_child theme =
      dedupFirst (fallbackThemes theme_parent theme_child theme)) ∧
    (generate_config st ad plugins theme domain analyze_domain none theme_parent
        theme_child =
      generate_config st ad plugins "" domain analyze_domain
        (some (dedupFirst (fallbackThemes theme_parent theme_child theme))) none none) := by
  refine ⟨fun h => themesToProcess_some_of_ne h theme_parent theme_child theme,
    fun h => ?_, rfl, rfl, ?_⟩
  · apply generate_config_tp_congr
    rw [themesToProcess_some_of_ne h theme_parent theme_child theme,
      themesToProcess_roundtrip]
  · apply generate_config_tp_congr
    rw [themesToProcess_roundtrip]
    rfl

/-- C8 witness: the amended selection applied to a concrete non-empty themes
list with duplicate entries and populated legacy fields. -/
theorem C8_witness :
    (["B", "A", "B"] : List String) ≠ [] ∧
    themesToProcess (some ["B", "A", "B"]) (some "p") (some "c") "t" =
      dedupFirst ["B", "A", "B"] :=
  ⟨by decide,
   (C8_theme_selection emptyStores noAds [] "" false ["B", "A", "B"] (some "p") (some "c")
     "t").1 (by decide)⟩

/-- C9.  The claim as stated is false: a malformed, non-dictionary category
value raises AttributeError at the .get call instead of behaving as an
empty dictionary. -/
theorem C9_counterexample :
    rawUniversalField (.pdict [("universal", .pint 5)]) "universal"
      "rucss_excluded_stylesheets" = .error "AttributeError" ∧
    rawUniversalField (.pdict [("universal", .pint 5)]) "universal"
      "rucss_excluded_stylesheets" ≠ .ok [] := by
  constructor
  · rfl
  · intro h
    have h2 : (Except.error "AttributeError" : Except String (List PyVal)) = .ok [] := h
    cases h2

/-- C9, amended: a missing category key does behave as an empty dictionary -
the universal extraction yields an empty list and the plugin lookup finds
nothing, raising no error - while a malformed non-dictionary category value
makes the access raise. -/
theorem C9_missing_as_empty :
    (∀ (kvs : List (String × PyVal)) (field : String),
      kvs.find? (fun kv => kv.1 == "universal") = none →
      rawUniversalField (.pdict kvs) "universal" field = .ok []) ∧
    (∀ (kvs : List (String × PyVal)) (plugin : String),
      kvs.find? (fun kv => kv.1 == "plugins") = none →
      rawGetPluginRucss (.pdict kvs) plugin = .ok none) := by
  constructor
  · intro kvs field h
    unfold rawUniversalField
    rw [show pyDictGet (.pdict kvs) "universal" (.pdict []) = .ok (.pdict []) from by
      simp [pyDictGet, h]]
    rfl
  · intro kvs plugin h
    unfold rawGetPluginRucss
    rw [show pyDictGet (.pdict kvs) "plugins" (.pdict []) = .ok (.pdict []) from by
      simp [pyDictGet, h]]
    rfl

/-- C9 witness: the missing-category behaviour at a concrete empty store. -/
theorem C9_witness :
    ([] : List (String × PyVal)).find? (fun kv => kv.1 == "universal") = none ∧
    rawUniversalField (.pdict []) "universal" "rucss_excluded_stylesheets" = .ok [] :=
  ⟨rfl, C9_missing_as_empty.1 [] "rucss_excluded_stylesheets" rfl⟩

/-- C10.  Confirmed: detected_ad_providers is the empty list on every call,
even when domain analysis is requested and detected ad exclusions are
merged into the output. -/
theorem C10_no_detected_providers :
    (∀ (st : Stores) (ad : AdExclusions) (plugins : List String) (theme domain : String)
      (analyze_domain : Bool) (themes : Option (List String))
      (theme_parent theme_child : Option String),
      (generate_config st ad plugins theme domain analyze_domain themes theme_parent
        theme_child).detected_ad_providers = []) ∧
    (generate_config emptyStores adDetectedW [] "default" "example.com" true none none
      none).exclusions.js_exclusions = ["ad.js"] ∧
    (generate_config emptyStores adDetectedW [] "default" "example.com" true none none
      none).detected_ad_providers = [] := by
  refine ⟨fun _ _ _ _ _ _ _ _ _ => rfl, by decide, rfl⟩

end Perfmatters
